import Mathlib

/-
  Verification development for a bio-inspired fault-diagnosis code base.

  The program under study consists of three Python modules:
  - scripts/fault_modeling.py : a fixed combinational circuit
      A, B (inputs), N1 = AND(A, B), N2 = NOT(A), N3 = OR(N1, N2),
      a recursive memoizing evaluator with stuck-at fault injection,
      a simulate driver, and a log comparison routine;
  - sensitivity_analysis.py : the same circuit and evaluator (textually
      identical definitions) plus a per-gate fault sensitivity sweep;
  - bayesian_diagnosis.py : a closed-form simulator of the same circuit
      (simulate_logic) and a sequential Bayesian update over stuck-at
      fault hypotheses.

  The embedding below is a direct shallow translation of that code.
  Python dictionaries become association lists (unique keys, insertion
  order preserved), Python exceptions become an explicit error type
  carried by Except, Python floats become exact rationals, and the
  unbounded recursion of the evaluator becomes fuel-indexed recursion
  (the fuel mirrors the Python recursion limit; any bound at least the
  circuit depth gives identical results on this circuit).
-/

/-- Error values modelling the Python exceptions that the translated code
can raise. The source defines no exception classes of its own; these are
the built-in Python exceptions reachable from the translated fragments. -/
inductive PyError where
  | keyError (key : String)
  | valueError
  | typeError
  | zeroDivisionError
  | recursionError
deriving DecidableEq

deriving instance DecidableEq for Except

/-- Gate kinds of the circuit table. The Python source stores either the
string INPUT or one of the gate functions AND, OR, NOT as the first
component of each circuit entry; this closed enumeration represents that
tag. -/
inductive GateKind where
  | INPUT
  | AND
  | OR
  | NOT
deriving DecidableEq

/-- Lookup in a Python dictionary modelled as an association list
(dict.get semantics, returning none when the key is absent). -/
def dictGet (m : List (String × Nat)) (k : String) : Option Nat :=
  match m with
  | [] => none
  | (k2, v) :: rest => if k2 = k then some v else dictGet rest k

/-- Assignment d[k] = v on a Python dictionary modelled as an association
list: replace the value when the key is present, append otherwise. -/
def dictInsert (m : List (String × Nat)) (k : String) (v : Nat) : List (String × Nat) :=
  match m with
  | [] => [(k, v)]
  | (k2, v2) :: rest => if k2 = k then (k, v) :: rest else (k2, v2) :: dictInsert rest k v

/-- The fixed circuit table shared by fault_modeling.py and
sensitivity_analysis.py: each node maps to its gate kind and ordered
fan-in list. -/
def circuit (n : String) : Option (GateKind × List String) :=
  if n = "A" then some (GateKind.INPUT, [])
  else if n = "B" then some (GateKind.INPUT, [])
  else if n = "N1" then some (GateKind.AND, ["A", "B"])
  else if n = "N2" then some (GateKind.NOT, ["A"])
  else if n = "N3" then some (GateKind.OR, ["N1", "N2"])
  else none

/-- Node identifiers of the circuit in dictionary insertion order. -/
def circuitNodes : List String := ["A", "B", "N1", "N2", "N3"]

/-- Application of a gate function to the list of evaluated fan-in values,
mirroring the Python call func(*input_vals): AND is bitwise and, OR is
bitwise or, NOT is complement restricted to one bit (~a & 1, which on
naturals is (a + 1) % 2); an arity mismatch or calling the INPUT tag is a
TypeError. -/
def applyGate (g : GateKind) (args : List Nat) : Except PyError Nat :=
  match g, args with
  | GateKind.AND, [a, b] => .ok (a &&& b)
  | GateKind.OR, [a, b] => .ok (a ||| b)
  | GateKind.NOT, [a] => .ok ((a + 1) % 2)
  | _, _ => .error .typeError

/-- Evaluation state of one simulate call: the memo table values and the
output log, both Python dictionaries in the source. -/
structure EvalSt where
  values : List (String × Nat)
  log : List (String × Nat)
deriving DecidableEq

/-- Sequential evaluation of the fan-in list, threading the evaluation
state left to right exactly as the Python list comprehension
[evaluate(inp, ...) for inp in inputs] does, and propagating the first
raised exception. -/
def evalArgs (ev : String → EvalSt → Except PyError (Nat × EvalSt)) :
    List String → EvalSt → Except PyError (List Nat × EvalSt)
  | [], st => .ok ([], st)
  | n :: rest, st =>
    match ev n st with
    | .error e => .error e
    | .ok (v, st1) =>
      match evalArgs ev rest st1 with
      | .error e => .error e
      | .ok (vs, st2) => .ok (v :: vs, st2)

/-- The recursive evaluator of fault_modeling.py and
sensitivity_analysis.py (the two files contain textually identical
definitions). Steps, in source order: memo hit returns the cached value;
the node is looked up in the circuit table (KeyError when absent); an
INPUT node reads its value from the memo table; a gate node evaluates its
fan-ins and applies the gate function; then, if the node equals the fault
node, the computed value is replaced by the stuck value; finally the
(possibly overridden) result is written to the memo table and the log.
The fuel argument models the Python recursion limit. -/
def evaluate (fault_node : Option String) (fault_value : Nat) :
    Nat → String → EvalSt → Except PyError (Nat × EvalSt)
  | 0, _, _ => .error .recursionError
  | fuel + 1, node, st =>
    match dictGet st.values node with
    | some v => .ok (v, st)
    | none =>
      match circuit node with
      | none => .error (.keyError node)
      | some fi =>
        match ((if fi.1 = GateKind.INPUT then
                 match dictGet st.values node with
                 | some v => .ok (v, st)
                 | none => .error (.keyError node)
               else
                 match evalArgs (evaluate fault_node fault_value fuel) fi.2 st with
                 | .error e => .error e
                 | .ok (input_vals, st1) =>
                   match applyGate fi.1 input_vals with
                   | .error e => .error e
                   | .ok r => .ok (r, st1)) : Except PyError (Nat × EvalSt)) with
        | .error e => .error e
        | .ok rs =>
          let result := if fault_node = some node then fault_value else rs.1
          .ok (result, ⟨dictInsert rs.2.values node result, dictInsert rs.2.log node result⟩)

/-- Fuel bound standing in for the Python recursion limit. -/
def evalFuel : Nat := 100

/-- The simulate driver shared by fault_modeling.py and
sensitivity_analysis.py: seed the memo table and the log with the two
input bits (reading inputs A then B raises KeyError on the first missing
key, exactly as the Python dictionary accesses do), evaluate the output
node N3, and return the log. -/
def simulate (inputs : List (String × Nat)) (fault_node : Option String)
    (fault_value : Nat) : Except PyError (List (String × Nat)) :=
  match dictGet inputs "A" with
  | none => .error (.keyError "A")
  | some a =>
    match dictGet inputs "B" with
    | none => .error (.keyError "B")
    | some b =>
      match evaluate fault_node fault_value evalFuel "N3"
          ⟨[("A", a), ("B", b)], [("A", a), ("B", b)]⟩ with
      | .error e => .error e
      | .ok rs => .ok rs.2.log

/-- Convenience projection used to state claims: the logged value of node
n after simulating the circuit on input bits a, b with an optional fault. -/
def simLogGet (a b : Nat) (fault_node : Option String) (fault_value : Nat)
    (n : String) : Option Nat :=
  match simulate [("A", a), ("B", b)] fault_node fault_value with
  | .ok log => dictGet log n
  | .error _ => none

/-- Boolean success test on a translated Python computation. -/
def isOkB {α : Type} (e : Except PyError α) : Bool :=
  match e with
  | .ok _ => true
  | .error _ => false

/-- Log comparison from fault_modeling.py. The Python loop runs over the
keys of the healthy log in insertion order; a node whose healthy value
differs from faulty_log.get(node, None) is recorded with the pair
(healthy_log[node], faulty_log[node]) - and that second indexing raises
KeyError when the node is absent from the faulty log. Nodes present only
in the faulty log are never visited. -/
def compare_logs : List (String × Nat) → List (String × Nat) →
    Except PyError (List (String × (Nat × Nat)))
  | [], _ => .ok []
  | (node, hv) :: rest, faulty =>
    if dictGet faulty node ≠ some hv then
      match dictGet faulty node with
      | none => .error (.keyError node)
      | some fv =>
        match compare_logs rest faulty with
        | .error e => .error e
        | .ok diffs => .ok ((node, (hv, fv)) :: diffs)
    else compare_logs rest faulty

/-- Gate nodes of the circuit (non-INPUT entries). -/
def isInputNode (n : String) : Bool :=
  match circuit n with
  | some (GateKind.INPUT, _) => true
  | _ => false

/-- One sensitivity trial of gate_sensitivity_analysis: simulate the
circuit healthy and with the given stuck-at fault on the given gate, and
report whether the logged output bit N3 differs. -/
def gateTrialOne (gate : String) (fault_val : Nat) (inp : List (String × Nat)) :
    Except PyError Bool :=
  match simulate inp none 0 with
  | .error e => .error e
  | .ok healthy_log =>
    match simulate inp (some gate) fault_val with
    | .error e => .error e
    | .ok faulty_log =>
      match dictGet healthy_log "N3" with
      | none => .error (.keyError "N3")
      | some hv =>
        match dictGet faulty_log "N3" with
        | none => .error (.keyError "N3")
        | some fv => .ok (hv != fv)

/-- The flattened trial list of gate_sensitivity_analysis: the two nested
loops (outer over stuck values [0, 1], inner over the input assignments)
in iteration order. -/
def trialsOf (all_inputs : List (List (String × Nat))) :
    List (Nat × List (String × Nat)) :=
  [0, 1].flatMap (fun v => all_inputs.map (fun inp => (v, inp)))

/-- Sequential mapping with exception propagation, modelling a Python loop
that stops at the first raised exception. -/
def mapExcept {α β : Type} (f : α → Except PyError β) : List α → Except PyError (List β)
  | [] => .ok []
  | x :: rest =>
    match f x with
    | .error e => .error e
    | .ok y =>
      match mapExcept f rest with
      | .error e => .error e
      | .ok ys => .ok (y :: ys)

/-- Sensitivity score of one gate in gate_sensitivity_analysis: run every
trial, count mismatches at the output node, and divide by the number of
trials; the integer division mismatches / total_tests raises
ZeroDivisionError when there are no trials. -/
def gateScore (gate : String) (all_inputs : List (List (String × Nat))) :
    Except PyError ℚ :=
  match mapExcept (fun t => gateTrialOne gate t.1 t.2) (trialsOf all_inputs) with
  | .error e => .error e
  | .ok results =>
    let mismatches := (results.filter (fun b => b)).length
    let total_tests := (trialsOf all_inputs).length
    if total_tests = 0 then .error .zeroDivisionError
    else .ok ((mismatches : ℚ) / (total_tests : ℚ))

/-- gate_sensitivity_analysis from sensitivity_analysis.py: for every
non-INPUT node of the circuit, in table order, compute the sensitivity
score over the supplied input assignments. -/
def gate_sensitivity_analysis (all_inputs : List (List (String × Nat))) :
    Except PyError (List (String × ℚ)) :=
  mapExcept
    (fun g =>
      match gateScore g all_inputs with
      | .error e => .error e
      | .ok s => .ok (g, s))
    (circuitNodes.filter (fun n => ¬ isInputNode n))

/-- Transitive fan-in of a node, computed from the circuit table with fuel
larger than the circuit depth; used to state which nodes are downstream of
a fault site. -/
def ancestorsFuel : Nat → String → List String
  | 0, _ => []
  | fuel + 1, n =>
    match circuit n with
    | some fi => fi.2 ++ fi.2.flatMap (ancestorsFuel fuel)
    | none => []

/-- Node n is downstream of g when g is in the transitive fan-in of n. -/
def isDownstream (g n : String) : Bool := (ancestorsFuel 5 n).contains g

/-- Bitwise OR lifted to optional logged values, used to state that a
downstream gate consumes the logged (possibly faulted) values. -/
def orOpt : Option Nat → Option Nat → Option Nat
  | some x, some y => some (x ||| y)
  | _, _ => none

/-- Python truthiness of the expression A and B on integers. -/
def pyAnd (a b : Nat) : Nat := if a = 0 then a else b

/-- Python truthiness of the expression X or Y on integers. -/
def pyOr (a b : Nat) : Nat := if a = 0 then b else a

/-- The Python expression ~a & 1 on a natural number: one bit of
complement, i.e. the parity flip (a + 1) % 2. -/
def pyNot1 (a : Nat) : Nat := (a + 1) % 2

/-- simulate_logic from bayesian_diagnosis.py: the closed-form circuit
X = A AND B, Y = NOT A, Z = X OR Y, where a fault state pins X or Y to the
given stuck value. Reading the inputs dictionary raises KeyError on a
missing key; fault states for keys other than X and Y are ignored. -/
def simulate_logic (inputs : List (String × Nat)) (fault_states : List (String × Nat)) :
    Except PyError Nat :=
  match dictGet inputs "A" with
  | none => .error (.keyError "A")
  | some a =>
    match dictGet inputs "B" with
    | none => .error (.keyError "B")
    | some b =>
      let x := match dictGet fault_states "X" with
               | some v => v
               | none => pyAnd a b
      let y := match dictGet fault_states "Y" with
               | some v => v
               | none => pyNot1 a
      .ok (pyOr x y)

/-- One observation consumed by bayesian_update: the input bits from the
tuple obs[inputs] and the observed output obs[Z_observed]. -/
structure Obs where
  A : Nat
  B : Nat
  Z_observed : Nat
deriving DecidableEq

/-- Fault hypothesis: the composite Python key gate_stuckbit (for example
X_0) split into its gate identifier and stuck value, exactly the pair that
bayesian_update reconstructs with fault_type.split. -/
abbrev Hyp := String × Nat

/-- Likelihood of one hypothesis for one observation, as computed inside
bayesian_update: 1.0 when the output simulated under the hypothesised
fault equals the observed output, 0.01 otherwise; a raised exception from
simulate_logic propagates. -/
def likelihoodOf (obs : Obs) (hp : Hyp × ℚ) : Except PyError ℚ :=
  match simulate_logic [("A", obs.A), ("B", obs.B)] [(hp.1.1, hp.1.2)] with
  | .error e => .error e
  | .ok faulty_output => .ok (if faulty_output = obs.Z_observed then (1 : ℚ) else 1 / 100)

/-- One iteration of the observation loop of bayesian_update: compute the
likelihood of every tracked hypothesis, multiply it into the posterior,
sum the values and divide every value by the sum. Distributions are
association lists with unique keys in insertion order, so the keyed
Python updates coincide with the positional ones here. When the
distribution is empty the normalisation loop body never runs and the
empty dictionary is returned; when it is nonempty and the total is zero
the first division raises ZeroDivisionError. Probabilities are exact
rationals in place of Python floats. -/
def updateStep (fault_probs : List (Hyp × ℚ)) (obs : Obs) :
    Except PyError (List (Hyp × ℚ)) :=
  match mapExcept (likelihoodOf obs) fault_probs with
  | .error e => .error e
  | .ok liks =>
    let multiplied := (fault_probs.zip liks).map (fun pl => (pl.1.1, pl.1.2 * pl.2))
    let total := (multiplied.map (fun hp => hp.2)).sum
    if fault_probs = [] then .ok multiplied
    else if total = 0 then .error .zeroDivisionError
    else .ok (multiplied.map (fun hp => (hp.1, hp.2 / total)))

/-- bayesian_update from bayesian_diagnosis.py: fold the per-observation
update over the observation list in order, starting from a copy of the
caller prior, and propagate any raised exception. -/
def bayesian_update (fault_probs : List (Hyp × ℚ)) (observations : List Obs) :
    Except PyError (List (Hyp × ℚ)) :=
  match observations with
  | [] => .ok fault_probs
  | obs :: rest =>
    match updateStep fault_probs obs with
    | .error e => .error e
    | .ok fp2 => bayesian_update fp2 rest

/-- Sum of the probability values of a distribution,
sum(fault_probs.values()) in the source. -/
def valsSum (d : List (Hyp × ℚ)) : ℚ := (d.map (fun hp => hp.2)).sum

/-- The demo prior of run_bayesian_fault_diagnosis: each of the four
stuck-at hypotheses on X and Y at probability 0.005. -/
def examplePrior : List (Hyp × ℚ) :=
  [(("X", 0), 5 / 1000), (("X", 1), 5 / 1000), (("Y", 0), 5 / 1000), (("Y", 1), 5 / 1000)]

/-- The demo observation list of run_bayesian_fault_diagnosis. -/
def exampleObservations : List Obs := [⟨1, 1, 0⟩, ⟨0, 0, 1⟩]

/-- run_bayesian_fault_diagnosis from bayesian_diagnosis.py, with the
console printing dropped: run bayesian_update on the demo prior and
observations. -/
def run_bayesian_fault_diagnosis : Except PyError (List (Hyp × ℚ)) :=
  bayesian_update examplePrior exampleObservations

/-- Outcome of one sensitivity trial as a total function; under the
coverage hypotheses of the claims it is the Boolean that gateTrialOne
returns. -/
def trialResult (gate : String) (v : Nat) (inp : List (String × Nat)) : Bool :=
  match gateTrialOne gate v inp with
  | .ok b => b
  | .error _ => false

/-- An input assignment supplies bits for both INPUT nodes A and B, the
wellformedness condition on InputAssignment values. -/
abbrev hasAB (inp : List (String × Nat)) : Prop :=
  (dictGet inp "A").isSome = true ∧ (dictGet inp "B").isSome = true

/-- Number of mismatching trials of one gate over the supplied input
assignments, counted exactly as gate_sensitivity_analysis counts them. -/
def mismatchCount (gate : String) (all_inputs : List (List (String × Nat))) : Nat :=
  ((((trialsOf all_inputs).map (fun t => trialResult gate t.1 t.2)).filter
    (fun b => b))).length

/-- The full input space of the two-input circuit, as built by the
drivers with the Cartesian product of bits for A and B. -/
def allInputsFull : List (List (String × Nat)) :=
  [[("A", 0), ("B", 0)], [("A", 0), ("B", 1)], [("A", 1), ("B", 0)], [("A", 1), ("B", 1)]]

/-- The diff set computed by compare_logs when it completes: the healthy
log entries whose node has a differing value in the faulty log. -/
def diffsOf (healthy faulty : List (String × Nat)) : List (String × (Nat × Nat)) :=
  healthy.filterMap (fun p =>
    match dictGet faulty p.1 with
    | some fv => if p.2 = fv then none else some (p.1, (p.2, fv))
    | none => none)

/-- The likelihood of bayesian_update as a total function of the
observation and the hypothesis; likelihoodOf always succeeds with this
value because the inputs dictionary it passes to simulate_logic always
carries both keys. -/
def lik (obs : Obs) (h : Hyp) : ℚ :=
  match simulate_logic [("A", obs.A), ("B", obs.B)] [(h.1, h.2)] with
  | .ok out => if out = obs.Z_observed then 1 else 1 / 100
  | .error _ => 0

/-- The multiplied but not yet normalised posterior of one update step. -/
def multipliedDist (fp : List (Hyp × ℚ)) (o : Obs) : List (Hyp × ℚ) :=
  fp.map (fun hp => (hp.1, hp.2 * lik o hp.1))

/-- The total posterior mass after multiplying in the likelihoods. -/
def multTotal (fp : List (Hyp × ℚ)) (o : Obs) : ℚ := valsSum (multipliedDist fp o)

/-- C1: for every input assignment over the INPUT nodes and every fault
spec (gate node, stuck bit), the evaluator logs the stuck bit at the
faulted node (the override happens before caching, so downstream
consumers read it: the logged output N3 is the OR of the logged, possibly
faulted, N1 and N2 values), while every node that is not downstream of
the faulted node carries the same logged value as in the healthy run; in
particular, for A=1, B=1 with fault (N1, stuck-at-0) the output flips
from 1 to 0. -/
theorem c1_fault_injection_propagation :
    (∀ a ∈ [0, 1], ∀ b ∈ [0, 1], ∀ g ∈ ["N1", "N2", "N3"], ∀ v ∈ [0, 1],
      isOkB (simulate [("A", a), ("B", b)] (some g) v) = true ∧
      simLogGet a b (some g) v g = some v ∧
      (∀ n ∈ circuitNodes, isDownstream g n = false → n ≠ g →
        simLogGet a b (some g) v n = simLogGet a b none 0 n) ∧
      (g ≠ "N3" →
        simLogGet a b (some g) v "N3" =
          orOpt (simLogGet a b (some g) v "N1") (simLogGet a b (some g) v "N2"))) ∧
    simLogGet 1 1 none 0 "N3" = some 1 ∧
    simLogGet 1 1 (some "N1") 0 "N3" = some 0 := by decide

/-- Witness for C1 at the concrete input A=1, B=1, fault (N1, stuck-at-0):
the faulted node logs the stuck bit 0. -/
theorem c1_fault_injection_propagation_witness :
    simLogGet 1 1 (some "N1") 0 "N1" = some 0 :=
  (c1_fault_injection_propagation.1 1 (by decide) 1 (by decide) "N1" (by decide)
    0 (by decide)).2.1

/-- C2: the healthy truth table of the reference circuit, both through the
recursive evaluator on node N3 and through simulate_logic with no fault
states: (0,0) gives 1, (0,1) gives 1, (1,0) gives 0, (1,1) gives 1. -/
theorem c2_healthy_truth_table :
    simLogGet 0 0 none 0 "N3" = some 1 ∧ simLogGet 0 1 none 0 "N3" = some 1 ∧
    simLogGet 1 0 none 0 "N3" = some 0 ∧ simLogGet 1 1 none 0 "N3" = some 1 ∧
    simulate_logic [("A", 0), ("B", 0)] [] = .ok 1 ∧
    simulate_logic [("A", 0), ("B", 1)] [] = .ok 1 ∧
    simulate_logic [("A", 1), ("B", 0)] [] = .ok 0 ∧
    simulate_logic [("A", 1), ("B", 1)] [] = .ok 1 := by decide

/-- C10: a fault spec naming an INPUT node is silently ignored: the input
values are pre-seeded into the memo table, so the early memo-hit return
fires before the fault-injection check and the whole evaluation log
equals the healthy one for every input assignment and stuck bit. -/
theorem c10_input_fault_silently_ignored :
    ∀ a ∈ [0, 1], ∀ b ∈ [0, 1], ∀ n ∈ ["A", "B"], ∀ v ∈ [0, 1],
      simulate [("A", a), ("B", b)] (some n) v =
        simulate [("A", a), ("B", b)] none 0 := by decide

/-- Witness for C10 at A=1, B=1 with fault (A, stuck-at-0). -/
theorem c10_input_fault_silently_ignored_witness :
    simulate [("A", 1), ("B", 1)] (some "A") 0 = simulate [("A", 1), ("B", 1)] none 0 :=
  c10_input_fault_silently_ignored 1 (by decide) 1 (by decide) "A" (by decide) 0 (by decide)

unseal Rat.mul Rat.inv Rat.add Rat.sub in
/-- Counterexample to C6: for the single-hypothesis prior that assigns
probability 0 to (X, stuck-at-0), the first update drives the total
posterior mass to exactly zero and the update fails with an unhandled
ZeroDivisionError - the code contains no DiagnosisError guard of any
kind. -/
theorem c6_counterexample :
    bayesian_update [(("X", 0), (0 : ℚ))] [⟨1, 1, 0⟩] = .error .zeroDivisionError := by
  decide

unseal Rat.mul Rat.inv Rat.add Rat.sub in
/-- Counterexample to C7: the repository runs its own diagnoser on a
prior whose values sum to 0.02, not 1, and the run succeeds - no
ConfigError (indeed no prior validation at all) exists in the code. -/
theorem c7_counterexample :
    isOkB run_bayesian_fault_diagnosis = true ∧ valsSum examplePrior ≠ 1 := by decide

/-- Counterexample to C8: simulating with an input assignment that lacks
the INPUT node A fails with KeyError, not ValueError. -/
theorem c8_counterexample :
    simulate [("B", 1)] none 0 = .error (.keyError "A") ∧
    PyError.keyError "A" ≠ PyError.valueError := by decide

theorem likelihoodOf_eq (obs : Obs) (hp : Hyp × ℚ) :
    likelihoodOf obs hp = .ok (lik obs hp.1) := rfl

theorem lik_eq (obs : Obs) (h : Hyp) :
    lik obs h =
      if pyOr (match dictGet [(h.1, h.2)] "X" with
               | some v => v
               | none => pyAnd obs.A obs.B)
              (match dictGet [(h.1, h.2)] "Y" with
               | some v => v
               | none => pyNot1 obs.A) = obs.Z_observed
      then 1 else 1 / 100 := rfl

theorem lik_pos (obs : Obs) (h : Hyp) : 0 < lik obs h := by
  rw [lik_eq]
  split <;> norm_num

theorem mapExcept_ok {α β : Type} (f : α → Except PyError β) (g : α → β) :
    ∀ l : List α, (∀ x ∈ l, f x = .ok (g x)) → mapExcept f l = .ok (l.map g) := by
  intro l h
  induction l with
  | nil => rfl
  | cons x rest ih =>
    have hx : f x = .ok (g x) := h x (by simp)
    have hrest := ih (fun y hy => h y (by simp [hy]))
    simp [mapExcept, hx, hrest]

theorem zip_map_mul (g : Hyp × ℚ → ℚ) :
    ∀ l : List (Hyp × ℚ),
      ((l.zip (l.map g)).map (fun pl => (pl.1.1, pl.1.2 * pl.2))) =
        l.map (fun hp => (hp.1, hp.2 * g hp)) := by
  intro l
  induction l with
  | nil => rfl
  | cons x rest ih => simp [ih]

/-- Closed form of one update step: the empty distribution passes through,
a zero total raises ZeroDivisionError, and otherwise every multiplied
value is divided by the total. -/
theorem updateStep_eq (fp : List (Hyp × ℚ)) (o : Obs) :
    updateStep fp o =
      if fp = [] then .ok []
      else if (fp.map (fun hp => hp.2 * lik o hp.1)).sum = 0 then .error .zeroDivisionError
      else .ok (fp.map (fun hp =>
        (hp.1, hp.2 * lik o hp.1 / (fp.map (fun hp2 => hp2.2 * lik o hp2.1)).sum))) := by
  unfold updateStep
  rw [mapExcept_ok (likelihoodOf o) (fun hp => lik o hp.1) fp
    (fun x _ => likelihoodOf_eq o x)]
  dsimp only
  rw [zip_map_mul]
  by_cases hfp : fp = []
  · subst hfp
    rfl
  · simp [hfp, List.map_map, Function.comp_def]

theorem updateStep_pos (fp : List (Hyp × ℚ)) (o : Obs) (hne : fp ≠ [])
    (hpos : ∀ p ∈ fp, 0 < p.2) :
    updateStep fp o =
      .ok (fp.map (fun hp =>
        (hp.1, hp.2 * lik o hp.1 / (fp.map (fun hp2 => hp2.2 * lik o hp2.1)).sum))) ∧
    0 < (fp.map (fun hp2 => hp2.2 * lik o hp2.1)).sum := by
  have hT : 0 < (fp.map (fun hp2 => hp2.2 * lik o hp2.1)).sum := by
    apply List.sum_pos
    · intro x hx
      obtain ⟨p, hp, rfl⟩ := List.mem_map.mp hx
      exact mul_pos (hpos p hp) (lik_pos o p.1)
    · simpa using hne
  refine ⟨?_, hT⟩
  rw [updateStep_eq]
  simp [hne, hT.ne']

/-- Sum of the normalised values is exactly one. -/
theorem normalized_sum (fp : List (Hyp × ℚ)) (o : Obs)
    (hT : (fp.map (fun hp2 => hp2.2 * lik o hp2.1)).sum ≠ 0) :
    valsSum (fp.map (fun hp =>
      (hp.1, hp.2 * lik o hp.1 / (fp.map (fun hp2 => hp2.2 * lik o hp2.1)).sum))) = 1 := by
  unfold valsSum
  rw [List.map_map]
  have hcomp : ((fun hp : Hyp × ℚ => hp.2) ∘ (fun hp : Hyp × ℚ =>
      (hp.1, hp.2 * lik o hp.1 / (fp.map (fun hp2 => hp2.2 * lik o hp2.1)).sum))) =
      (fun hp : Hyp × ℚ =>
        (hp.2 * lik o hp.1) * ((fp.map (fun hp2 => hp2.2 * lik o hp2.1)).sum)⁻¹) := by
    funext hp
    simp [div_eq_mul_inv]
  rw [hcomp, List.sum_map_mul_right, mul_inv_cancel₀ hT]

/-- Invariant of the observation loop: starting from a nonempty strictly
positive distribution, every update succeeds and yields a nonempty
strictly positive distribution, whose values sum to one as soon as at
least one observation has been processed (or the start already summed to
one). -/
theorem bayesian_update_invariant :
    ∀ (obs : List Obs) (fp : List (Hyp × ℚ)), fp ≠ [] → (∀ p ∈ fp, 0 < p.2) →
      ∃ d, bayesian_update fp obs = .ok d ∧ d ≠ [] ∧ (∀ p ∈ d, 0 < p.2) ∧
        ((obs ≠ [] ∨ valsSum fp = 1) → valsSum d = 1) := by
  intro obs
  induction obs with
  | nil =>
    intro fp hne hpos
    refine ⟨fp, rfl, hne, hpos, fun h => ?_⟩
    rcases h with h | h
    · exact absurd rfl h
    · exact h
  | cons o rest ih =>
    intro fp hne hpos
    obtain ⟨hstep, hT⟩ := updateStep_pos fp o hne hpos
    have hd1ne : fp.map (fun hp =>
        (hp.1, hp.2 * lik o hp.1 / (fp.map (fun hp2 => hp2.2 * lik o hp2.1)).sum)) ≠ [] := by
      simpa using hne
    have hd1pos : ∀ p ∈ fp.map (fun hp =>
        (hp.1, hp.2 * lik o hp.1 / (fp.map (fun hp2 => hp2.2 * lik o hp2.1)).sum)), 0 < p.2 := by
      intro p hp
      obtain ⟨q, hq, rfl⟩ := List.mem_map.mp hp
      exact div_pos (mul_pos (hpos q hq) (lik_pos o q.1)) hT
    have hd1sum := normalized_sum fp o hT.ne'
    obtain ⟨d, hupd, hdne, hdpos, hdsum⟩ := ih _ hd1ne hd1pos
    refine ⟨d, ?_, hdne, hdpos, fun _ => hdsum (Or.inr hd1sum)⟩
    rw [bayesian_update, hstep]
    exact hupd

/-- C3: for every (nonempty) prior with strictly positive values and
every observation sequence, after each individual update step the
posterior values sum to one within the stated 1e-9 tolerance (here
exactly, since the embedding computes with exact rationals) and every
value remains strictly positive. The prefix of length n captures the
state after the n-th individual update of the loop. -/
theorem c3_normalization_invariant (prior : List (Hyp × ℚ)) (hne : prior ≠ [])
    (hpos : ∀ p ∈ prior, 0 < p.2) (obs : List Obs) (n : Nat) (h1 : 1 ≤ n)
    (h2 : n ≤ obs.length) :
    ∃ d, bayesian_update prior (obs.take n) = .ok d ∧
      |valsSum d - 1| ≤ 1 / 1000000000 ∧ ∀ p ∈ d, 0 < p.2 := by
  have htne : obs.take n ≠ [] := by
    have hlt : 0 < (obs.take n).length := by
      rw [List.length_take]
      omega
    intro hcon
    rw [hcon] at hlt
    simp at hlt
  obtain ⟨d, hupd, _, hdpos, hdsum⟩ := bayesian_update_invariant (obs.take n) prior hne hpos
  refine ⟨d, hupd, ?_, hdpos⟩
  rw [hdsum (Or.inl htne)]
  norm_num

/-- Witness for C3: the single-hypothesis prior at probability one, one
observation, after the first update step. -/
theorem c3_normalization_invariant_witness :
    ∃ d, bayesian_update [(("X", 0), (1 : ℚ))] (([⟨1, 1, 0⟩] : List Obs).take 1) = .ok d ∧
      |valsSum d - 1| ≤ 1 / 1000000000 ∧ ∀ p ∈ d, 0 < p.2 :=
  c3_normalization_invariant _ (by simp)
    (by
      intro p hp
      simp only [List.mem_singleton] at hp
      subst hp
      norm_num)
    [⟨1, 1, 0⟩] 1 (by norm_num) (by simp)

/-- Closed form of two consecutive update steps on a distribution with
nonnegative values, at least one of them positive: each value becomes its
product with both likelihoods, normalised by the global total, so the
two observations enter only through a product. -/
theorem bayesian_two_step (fp : List (Hyp × ℚ)) (o1 o2 : Obs) (hne : fp ≠ [])
    (hnn : ∀ p ∈ fp, 0 ≤ p.2) (p0 : Hyp × ℚ) (hp0 : p0 ∈ fp) (hp0pos : 0 < p0.2) :
    bayesian_update fp [o1, o2] =
      .ok (fp.map (fun hp =>
        (hp.1, hp.2 * (lik o1 hp.1 * lik o2 hp.1) /
          (fp.map (fun hp2 => hp2.2 * (lik o1 hp2.1 * lik o2 hp2.1))).sum))) := by
  have hT1 : 0 < (fp.map (fun hp2 => hp2.2 * lik o1 hp2.1)).sum := by
    have hall : ∀ x ∈ fp.map (fun hp2 => hp2.2 * lik o1 hp2.1), 0 ≤ x := by
      intro x hx
      obtain ⟨p, hp, rfl⟩ := List.mem_map.mp hx
      exact mul_nonneg (hnn p hp) (lik_pos o1 p.1).le
    have hmem : p0.2 * lik o1 p0.1 ∈ fp.map (fun hp2 => hp2.2 * lik o1 hp2.1) :=
      List.mem_map_of_mem _ hp0
    calc (0 : ℚ) < p0.2 * lik o1 p0.1 := mul_pos hp0pos (lik_pos o1 p0.1)
      _ ≤ _ := List.single_le_sum hall _ hmem
  have hT12 : 0 < (fp.map (fun hp2 => hp2.2 * (lik o1 hp2.1 * lik o2 hp2.1))).sum := by
    have hall : ∀ x ∈ fp.map (fun hp2 => hp2.2 * (lik o1 hp2.1 * lik o2 hp2.1)), 0 ≤ x := by
      intro x hx
      obtain ⟨p, hp, rfl⟩ := List.mem_map.mp hx
      exact mul_nonneg (hnn p hp) (mul_pos (lik_pos o1 p.1) (lik_pos o2 p.1)).le
    have hmem : p0.2 * (lik o1 p0.1 * lik o2 p0.1) ∈
        fp.map (fun hp2 => hp2.2 * (lik o1 hp2.1 * lik o2 hp2.1)) :=
      List.mem_map_of_mem _ hp0
    calc (0 : ℚ) < p0.2 * (lik o1 p0.1 * lik o2 p0.1) :=
          mul_pos hp0pos (mul_pos (lik_pos o1 p0.1) (lik_pos o2 p0.1))
      _ ≤ _ := List.single_le_sum hall _ hmem
  have hstep1 : updateStep fp o1 =
      .ok (fp.map (fun hp =>
        (hp.1, hp.2 * lik o1 hp.1 / (fp.map (fun hp2 => hp2.2 * lik o1 hp2.1)).sum))) := by
    rw [updateStep_eq]
    simp [hne, hT1.ne']
  have hd1ne : fp.map (fun hp =>
      (hp.1, hp.2 * lik o1 hp.1 / (fp.map (fun hp2 => hp2.2 * lik o1 hp2.1)).sum)) ≠ [] := by
    simpa using hne
  have hden : ((fp.map (fun hp =>
      (hp.1, hp.2 * lik o1 hp.1 / (fp.map (fun hp2 => hp2.2 * lik o1 hp2.1)).sum))).map
        (fun hp2 => hp2.2 * lik o2 hp2.1)).sum =
      (fp.map (fun hp2 => hp2.2 * (lik o1 hp2.1 * lik o2 hp2.1))).sum *
        ((fp.map (fun hp2 => hp2.2 * lik o1 hp2.1)).sum)⁻¹ := by
    rw [List.map_map]
    have hg : ((fun hp2 : Hyp × ℚ => hp2.2 * lik o2 hp2.1) ∘ (fun hp : Hyp × ℚ =>
        (hp.1, hp.2 * lik o1 hp.1 / (fp.map (fun hp2 => hp2.2 * lik o1 hp2.1)).sum))) =
        (fun hp : Hyp × ℚ => (hp.2 * (lik o1 hp.1 * lik o2 hp.1)) *
          ((fp.map (fun hp2 => hp2.2 * lik o1 hp2.1)).sum)⁻¹) := by
      funext hp
      simp only [Function.comp_apply]
      ring
    rw [hg, List.sum_map_mul_right]
  have hstep2 : updateStep (fp.map (fun hp =>
      (hp.1, hp.2 * lik o1 hp.1 / (fp.map (fun hp2 => hp2.2 * lik o1 hp2.1)).sum))) o2 =
      .ok (fp.map (fun hp =>
        (hp.1, hp.2 * (lik o1 hp.1 * lik o2 hp.1) /
          (fp.map (fun hp2 => hp2.2 * (lik o1 hp2.1 * lik o2 hp2.1))).sum))) := by
    rw [updateStep_eq]
    rw [if_neg hd1ne, hden, if_neg (mul_ne_zero hT12.ne' (inv_ne_zero hT1.ne'))]
    rw [List.map_map]
    refine congrArg Except.ok (List.map_congr_left ?_)
    intro hp _
    simp only [Function.comp_apply]
    refine congrArg (fun z => (hp.1, z)) ?_
    field_simp
    ring
  rw [bayesian_update, hstep1]
  dsimp only
  rw [bayesian_update, hstep2]
  dsimp only
  rw [bayesian_update]

/-- C4: running the Bayesian update on the observation pair [o1, o2]
yields exactly the same result as on [o2, o1], for every prior with
nonnegative values (any probability assignment): per-hypothesis
likelihood multiplication commutes with normalisation, and in the exact
rational embedding the two final posteriors are equal on the nose (hence
certainly within floating tolerance); a degenerate all-zero prior fails
identically in both orders. -/
theorem c4_order_independence (prior : List (Hyp × ℚ))
    (hnn : ∀ p ∈ prior, 0 ≤ p.2) (o1 o2 : Obs) :
    bayesian_update prior [o1, o2] = bayesian_update prior [o2, o1] := by
  by_cases hne : prior = []
  · subst hne
    rfl
  · by_cases hex : ∃ p ∈ prior, 0 < p.2
    · obtain ⟨p0, hp0, hp0pos⟩ := hex
      rw [bayesian_two_step prior o1 o2 hne hnn p0 hp0 hp0pos,
        bayesian_two_step prior o2 o1 hne hnn p0 hp0 hp0pos]
      have hg : (fun hp2 : Hyp × ℚ => hp2.2 * (lik o2 hp2.1 * lik o1 hp2.1)) =
          (fun hp2 : Hyp × ℚ => hp2.2 * (lik o1 hp2.1 * lik o2 hp2.1)) := by
        funext hp2
        ring
      rw [hg]
      refine congrArg Except.ok (List.map_congr_left ?_)
      intro hp _
      refine congrArg (fun z => (hp.1, z)) ?_
      rw [mul_comm (lik o2 hp.1)]
    · have hzero : ∀ p ∈ prior, p.2 = 0 := by
        intro p hp
        rcases lt_or_eq_of_le (hnn p hp) with hlt | heq
        · exact absurd ⟨p, hp, hlt⟩ hex
        · exact heq.symm
      have hsum : ∀ o : Obs, (prior.map (fun hp2 => hp2.2 * lik o hp2.1)).sum = 0 := by
        intro o
        apply List.sum_eq_zero
        intro x hx
        obtain ⟨p, hp, rfl⟩ := List.mem_map.mp hx
        rw [hzero p hp, zero_mul]
      have herr : ∀ o rest, bayesian_update prior (o :: rest) = .error .zeroDivisionError := by
        intro o rest
        rw [bayesian_update, updateStep_eq, if_neg hne, if_pos (hsum o)]
      rw [herr o1 [o2], herr o2 [o1]]

/-- Witness for C4: a concrete two-hypothesis prior and the two demo
observations, in both orders. -/
theorem c4_order_independence_witness :
    bayesian_update [(("X", 0), (1 / 2 : ℚ)), (("Y", 1), 1 / 4)]
        [⟨1, 1, 0⟩, ⟨0, 0, 1⟩] =
      bayesian_update [(("X", 0), (1 / 2 : ℚ)), (("Y", 1), 1 / 4)]
        [⟨0, 0, 1⟩, ⟨1, 1, 0⟩] :=
  c4_order_independence _
    (by
      intro p hp
      rcases List.mem_cons.mp hp with h | h
      · subst h
        norm_num
      · simp only [List.mem_singleton] at h
        subst h
        norm_num)
    ⟨1, 1, 0⟩ ⟨0, 0, 1⟩

/-- C6 (amended): when the total posterior mass after multiplying in the
likelihoods is exactly zero and the hypothesis set is nonempty, the
update fails with an unhandled ZeroDivisionError (there is no
DiagnosisError guard in the code); the caller distribution is left
unmodified because the update works on a copy, which the functional
embedding renders by leaving the argument untouched. Otherwise every
multiplied value is divided by the total. -/
theorem c6_amended_zero_total (fp : List (Hyp × ℚ)) (o : Obs) (hne : fp ≠ []) :
    (multTotal fp o = 0 → updateStep fp o = .error .zeroDivisionError) ∧
    (multTotal fp o ≠ 0 → updateStep fp o =
      .ok ((multipliedDist fp o).map (fun hp => (hp.1, hp.2 / multTotal fp o)))) := by
  have hmt : multTotal fp o = (fp.map (fun hp2 => hp2.2 * lik o hp2.1)).sum := by
    unfold multTotal multipliedDist valsSum
    rw [List.map_map]
    rfl
  constructor
  · intro h
    rw [updateStep_eq]
    rw [hmt] at h
    simp [hne, h]
  · intro h
    rw [updateStep_eq]
    rw [hmt] at h
    simp only [hne, if_false, h, if_neg h]
    simp [multipliedDist, List.map_map, Function.comp, hmt]

/-- Witness for C6 (amended): a one-hypothesis distribution at
probability one has nonzero total and is normalised in place. -/
theorem c6_amended_zero_total_witness :
    (multTotal [(("X", 0), (1 : ℚ))] ⟨1, 1, 0⟩ = 0 →
      updateStep [(("X", 0), (1 : ℚ))] ⟨1, 1, 0⟩ = .error .zeroDivisionError) ∧
    (multTotal [(("X", 0), (1 : ℚ))] ⟨1, 1, 0⟩ ≠ 0 →
      updateStep [(("X", 0), (1 : ℚ))] ⟨1, 1, 0⟩ =
        .ok ((multipliedDist [(("X", 0), (1 : ℚ))] ⟨1, 1, 0⟩).map
          (fun hp => (hp.1, hp.2 / multTotal [(("X", 0), (1 : ℚ))] ⟨1, 1, 0⟩)))) :=
  c6_amended_zero_total [(("X", 0), (1 : ℚ))] ⟨1, 1, 0⟩ (by simp)

/-- C7 (amended): no prior validation exists anywhere in the code - any
nonempty prior with strictly positive values is accepted and every update
runs to completion without error, whether or not the prior sums to one
(the repository demo prior sums to 0.02). -/
theorem c7_amended_no_prior_validation (prior : List (Hyp × ℚ)) (hne : prior ≠ [])
    (hpos : ∀ p ∈ prior, 0 < p.2) (obs : List Obs) :
    ∃ d, bayesian_update prior obs = .ok d := by
  obtain ⟨d, h, _⟩ := bayesian_update_invariant obs prior hne hpos
  exact ⟨d, h⟩

/-- Witness for C7 (amended): a prior summing to three is accepted and
processed without error. -/
theorem c7_amended_no_prior_validation_witness :
    ∃ d, bayesian_update [(("X", 0), (3 : ℚ))] [⟨1, 1, 0⟩] = .ok d :=
  c7_amended_no_prior_validation _ (by simp)
    (by
      intro p hp
      simp only [List.mem_singleton] at hp
      subst hp
      norm_num)
    [⟨1, 1, 0⟩]

/-- Counterexample to C9: a node present in the healthy log but absent
from the faulty log makes compare_logs raise a KeyError instead of being
reported as a difference; and a node present only in the faulty log is
silently ignored rather than included in the diff set. -/
theorem c9_counterexample :
    compare_logs [("A", 1)] [] = .error (.keyError "A") ∧
    compare_logs [] [("Z", 1)] = .ok [] := by decide

/-- C8 (amended): simulating with an input assignment that lacks a value
for INPUT node A, or that has A but lacks B, fails with a KeyError naming
the missing key - a Python lookup error, not a ValueError. -/
theorem c8_amended_keyerror (inputs : List (String × Nat)) (fn : Option String) (fv : Nat) :
    (dictGet inputs "A" = none → simulate inputs fn fv = .error (.keyError "A")) ∧
    (∀ a, dictGet inputs "A" = some a → dictGet inputs "B" = none →
      simulate inputs fn fv = .error (.keyError "B")) := by
  constructor
  · intro h
    unfold simulate
    rw [h]
  · intro a ha hb
    unfold simulate
    rw [ha, hb]

/-- Witness for C8 (amended): concrete assignments missing A and missing
B respectively. -/
theorem c8_amended_keyerror_witness :
    simulate [("B", 1)] (some "N1") 0 = .error (.keyError "A") ∧
    simulate [("A", 1)] none 0 = .error (.keyError "B") :=
  ⟨(c8_amended_keyerror [("B", 1)] (some "N1") 0).1 (by decide),
   (c8_amended_keyerror [("A", 1)] none 0).2 1 (by decide) (by decide)⟩

theorem compare_logs_ok :
    ∀ (healthy faulty : List (String × Nat)),
      (∀ p ∈ healthy, (dictGet faulty p.1).isSome = true) →
      compare_logs healthy faulty = .ok (diffsOf healthy faulty) := by
  intro healthy
  induction healthy with
  | nil =>
    intro faulty _
    rfl
  | cons p rest ih =>
    intro faulty h
    obtain ⟨fv, hfv⟩ := Option.isSome_iff_exists.mp (h p (by simp))
    have hrest := ih faulty (fun q hq => h q (by simp [hq]))
    obtain ⟨node, hv⟩ := p
    simp only at hfv
    by_cases heq : hv = fv
    · subst heq
      rw [compare_logs, hfv, if_neg (by simp)]
      rw [hrest]
      unfold diffsOf
      rw [List.filterMap_cons]
      simp [hfv]
    · rw [compare_logs, hfv, if_pos (by simpa using Ne.symm heq)]
      dsimp only
      rw [hrest]
      unfold diffsOf
      rw [List.filterMap_cons]
      simp [hfv, heq]

theorem mem_diffsOf (healthy faulty : List (String × Nat)) (n : String) (hv fv : Nat) :
    (n, (hv, fv)) ∈ diffsOf healthy faulty ↔
      ((n, hv) ∈ healthy ∧ dictGet faulty n = some fv ∧ hv ≠ fv) := by
  unfold diffsOf
  rw [List.mem_filterMap]
  constructor
  · rintro ⟨p, hp, hpe⟩
    rcases hd : dictGet faulty p.1 with _ | fv2
    · rw [hd] at hpe
      simp at hpe
    · rw [hd] at hpe
      by_cases heq : p.2 = fv2
      · simp [heq] at hpe
      · have h1 : p.1 = n ∧ p.2 = hv ∧ fv2 = fv := by
          simpa [heq] using hpe
        obtain ⟨e1, e2, e3⟩ := h1
        refine ⟨?_, ?_, ?_⟩
        · have hpn : p = (n, hv) := by
            rw [← e1, ← e2]
          exact hpn ▸ hp
        · rw [← e1, hd, e3]
        · rw [← e2, ← e3]
          exact heq
  · rintro ⟨hmem, hget, hne⟩
    refine ⟨(n, hv), hmem, ?_⟩
    simp [hget, hne]

/-- C9 (amended): when every node of the healthy log is also present in
the faulty log, compare_logs succeeds and returns exactly the nodes whose
values differ, each paired with (healthy value, faulty value); a node
present only in the faulty log is ignored, and (per the separate
counterexample) a healthy-log node missing from the faulty log raises
KeyError instead of being reported. -/
theorem c9_amended_diff_exactness (healthy faulty : List (String × Nat))
    (hcov : ∀ p ∈ healthy, (dictGet faulty p.1).isSome = true) :
    ∃ diffs, compare_logs healthy faulty = .ok diffs ∧
      ∀ n hv fv, (n, (hv, fv)) ∈ diffs ↔
        ((n, hv) ∈ healthy ∧ dictGet faulty n = some fv ∧ hv ≠ fv) :=
  ⟨diffsOf healthy faulty, compare_logs_ok healthy faulty hcov,
    fun n hv fv => mem_diffsOf healthy faulty n hv fv⟩

/-- Witness for C9 (amended): two concrete logs over the same nodes. -/
theorem c9_amended_diff_exactness_witness :
    ∃ diffs, compare_logs [("A", 1), ("N3", 0)] [("A", 1), ("N3", 1)] = .ok diffs ∧
      ∀ n hv fv, (n, (hv, fv)) ∈ diffs ↔
        ((n, hv) ∈ [("A", 1), ("N3", 0)] ∧
          dictGet [("A", 1), ("N3", 1)] n = some fv ∧ hv ≠ fv) :=
  c9_amended_diff_exactness [("A", 1), ("N3", 0)] [("A", 1), ("N3", 1)] (by decide)

theorem simulate_seeded (inp : List (String × Nat)) (a b : Nat)
    (fn : Option String) (fv : Nat)
    (h1 : dictGet inp "A" = some a) (h2 : dictGet inp "B" = some b) :
    simulate inp fn fv = simulate [("A", a), ("B", b)] fn fv := by
  unfold simulate
  rw [h1, h2]
  rfl

theorem gateTrial_ok (g : String) (hg : g ∈ ["N1", "N2", "N3"]) (v : Nat)
    (inp : List (String × Nat)) (hab : hasAB inp) :
    gateTrialOne g v inp = .ok (trialResult g v inp) := by
  obtain ⟨hA, hB⟩ := hab
  obtain ⟨a, ha⟩ := Option.isSome_iff_exists.mp hA
  obtain ⟨b, hb⟩ := Option.isSome_iff_exists.mp hB
  unfold trialResult gateTrialOne
  rw [simulate_seeded inp a b none 0 ha hb, simulate_seeded inp a b (some g) v ha hb]
  simp only [List.mem_cons, List.mem_singleton] at hg
  rcases hg with rfl | rfl | rfl | hcon
  · rfl
  · rfl
  · rfl
  · exact absurd hcon (by simp)

theorem trialsOf_length (all_inputs : List (List (String × Nat))) :
    (trialsOf all_inputs).length = 2 * all_inputs.length := by
  unfold trialsOf
  simp [List.length_append, List.length_map]
  omega

theorem gateScore_of_hasAB (g : String) (hg : g ∈ ["N1", "N2", "N3"])
    (all_inputs : List (List (String × Nat))) (hne : all_inputs ≠ [])
    (hAB : ∀ inp ∈ all_inputs, hasAB inp) :
    gateScore g all_inputs =
      .ok ((mismatchCount g all_inputs : ℚ) / ((2 * all_inputs.length : Nat) : ℚ)) := by
  have htr : ∀ t ∈ trialsOf all_inputs,
      gateTrialOne g t.1 t.2 = .ok (trialResult g t.1 t.2) := by
    intro t ht
    have h2 : t.2 ∈ all_inputs := by
      unfold trialsOf at ht
      simp only [List.mem_flatMap, List.mem_map] at ht
      obtain ⟨v, _, inp, hinp, hte⟩ := ht
      rw [← hte]
      exact hinp
    exact gateTrial_ok g hg t.1 t.2 (hAB t.2 h2)
  unfold gateScore
  rw [mapExcept_ok _ _ _ htr]
  dsimp only
  have hlz : (trialsOf all_inputs).length ≠ 0 := by
    rw [trialsOf_length]
    have : all_inputs.length ≠ 0 := by
      simpa [List.length_eq_zero] using hne
    omega
  rw [if_neg hlz, trialsOf_length]
  rfl

/-- C5: for every non-INPUT gate, the sensitivity analysis over a
(nonempty) set of wellformed input assignments runs exactly twice the
number of assignments as trials (each assignment crossed with each stuck
bit), counts a mismatch exactly when the faulty output bit at N3 differs
from the healthy one, and returns the score mismatches divided by total
trials, which lies in [0, 1]. -/
theorem c5_sensitivity_scores (all_inputs : List (List (String × Nat)))
    (hne : all_inputs ≠ []) (hAB : ∀ inp ∈ all_inputs, hasAB inp) :
    ∃ scores, gate_sensitivity_analysis all_inputs = .ok scores ∧
      scores.map (fun p => p.1) = ["N1", "N2", "N3"] ∧
      (trialsOf all_inputs).length = 2 * all_inputs.length ∧
      ∀ p ∈ scores,
        p.2 = (mismatchCount p.1 all_inputs : ℚ) / ((2 * all_inputs.length : Nat) : ℚ) ∧
        0 ≤ p.2 ∧ p.2 ≤ 1 := by
  have hgates : circuitNodes.filter (fun n => ¬ isInputNode n) = ["N1", "N2", "N3"] := by
    decide
  have hscores : gate_sensitivity_analysis all_inputs =
      .ok (["N1", "N2", "N3"].map (fun g =>
        (g, (mismatchCount g all_inputs : ℚ) / ((2 * all_inputs.length : Nat) : ℚ)))) := by
    unfold gate_sensitivity_analysis
    rw [hgates]
    apply mapExcept_ok
    intro g hg
    rw [gateScore_of_hasAB g hg all_inputs hne hAB]
  refine ⟨_, hscores, by simp, trialsOf_length all_inputs, ?_⟩
  intro p hp
  obtain ⟨g, hgmem, rfl⟩ := List.mem_map.mp hp
  have hlpos : (0 : ℚ) < ((2 * all_inputs.length : Nat) : ℚ) := by
    have h0 : all_inputs.length ≠ 0 := by
      simpa [List.length_eq_zero] using hne
    have h1 : 0 < 2 * all_inputs.length := by omega
    exact_mod_cast h1
  have hmle : mismatchCount g all_inputs ≤ 2 * all_inputs.length := by
    unfold mismatchCount
    calc ((((trialsOf all_inputs).map (fun t => trialResult g t.1 t.2)).filter
            (fun b => b))).length
        ≤ ((trialsOf all_inputs).map (fun t => trialResult g t.1 t.2)).length :=
          List.length_filter_le _ _
      _ = (trialsOf all_inputs).length := List.length_map _ _
      _ = 2 * all_inputs.length := trialsOf_length all_inputs
  refine ⟨rfl, ?_, ?_⟩
  · exact div_nonneg (Nat.cast_nonneg _) (Nat.cast_nonneg _)
  · rw [div_le_one hlpos]
    exact_mod_cast hmle

/-- Witness for C5 at the full Cartesian input space of the two INPUT
nodes. -/
theorem c5_sensitivity_scores_witness :
    ∃ scores, gate_sensitivity_analysis allInputsFull = .ok scores ∧
      scores.map (fun p => p.1) = ["N1", "N2", "N3"] ∧
      (trialsOf allInputsFull).length = 2 * allInputsFull.length ∧
      ∀ p ∈ scores,
        p.2 = (mismatchCount p.1 allInputsFull : ℚ) / ((2 * allInputsFull.length : Nat) : ℚ) ∧
        0 ≤ p.2 ∧ p.2 ≤ 1 :=
  c5_sensitivity_scores allInputsFull (by decide) (by decide)
